import Mathlib

/-!
Shallow embedding of `src/run_server.py` of the repository
`ros_detect_planes_from_depth_img`: the result-aggregation publisher
(`PlaneResultsPublisher.publish`), the pose publisher
(`PlanePosePublisher.publish`) and the per-cycle publish sequence of
`main`.  Machine floats are modelled by real numbers; python indexing
that can raise `IndexError` is modelled by `Option`.
-/

open Real

/-- Modelled from the spec: `PlaneParam` is defined in `plane_detector.py`,
which is not under `src/`.  Per the spec's data model the plane carries a
3-vector 3D center, a 2-vector 2D pixel center and a 3-vector mask color;
the field `w` is the plane's weight vector, whose component count the spec
does not pin down consistently (its data model says the normal is a
3-vector, while the pose publisher in `src/run_server.py` reads
`norms[1:4]` and `norms[3]`, which requires at least 4 components).  All
fields are kept as plain real lists so that both readings can be stated. -/
structure PlaneParam where
  w : List ℝ
  pts_3d_center : List ℝ
  pts_2d_center : List ℝ
  mask_color : List ℝ

/-- Modelled from the spec: well-formedness of a detector-produced plane.
Component counts of the centers and mask color follow the spec's data
model; the weight vector `w` has the 4 components that the pose
publisher's indexing (`norms[1:4]`, `norms[3]` in `src/run_server.py`)
requires. -/
def PlaneParam.WF (pp : PlaneParam) : Prop :=
  pp.w.length = 4 ∧ pp.pts_3d_center.length = 3 ∧
    pp.pts_2d_center.length = 2 ∧ pp.mask_color.length = 3

instance (pp : PlaneParam) : Decidable pp.WF := by
  unfold PlaneParam.WF; infer_instance

/-- The `PlanesResults` ROS message: a count plus four flattened numeric
sequences (python message fields default to `0` and empty arrays). -/
structure PlanesResults where
  N : ℕ
  norms : List ℝ
  center_3d : List ℝ
  center_2d : List ℝ
  mask_color : List ℝ

/-- The message built by `PlaneResultsPublisher.publish`
(`src/run_server.py` lines 73-79): `res.N = len(plane_params)` and the
loop `for pp in plane_params` extends each of the four arrays in order,
which is concatenation of the per-plane lists. -/
def PlaneResultsPublisher.publish (plane_params : List PlaneParam) : PlanesResults :=
  { N := plane_params.length
    norms := plane_params.flatMap (fun pp => pp.w)
    center_3d := plane_params.flatMap (fun pp => pp.pts_3d_center)
    center_2d := plane_params.flatMap (fun pp => pp.pts_2d_center)
    mask_color := plane_params.flatMap (fun pp => pp.mask_color) }

/-- The `geometry_msgs/Point` position of a `Pose` message; ROS messages
zero-initialize every numeric field. -/
structure Point where
  x : ℝ
  y : ℝ
  z : ℝ

/-- The `geometry_msgs/Quaternion` orientation of a `Pose` message. -/
structure QuatMsg where
  x : ℝ
  y : ℝ
  z : ℝ
  w : ℝ

/-- The `geometry_msgs/Pose` message. -/
structure Pose where
  position : Point
  orientation : QuatMsg

/-- `Pose()` in python: every field zero-initialized, including the
orientation, whose default is the zero quaternion (w = 0), not the
identity quaternion. -/
def Pose.zero : Pose := ⟨⟨0, 0, 0⟩, ⟨0, 0, 0, 0⟩⟩

/-- A `pyquaternion.Quaternion`, stored as scalar part `w` plus vector
part `(x, y, z)` (`.real` and `.imaginary` in the library). -/
structure PyQuaternion where
  w : ℝ
  x : ℝ
  y : ℝ
  z : ℝ

/-- The Hamilton product, as implemented by `pyquaternion.Quaternion.__mul__`. -/
def PyQuaternion.mul (a b : PyQuaternion) : PyQuaternion :=
  { w := a.w * b.w - a.x * b.x - a.y * b.y - a.z * b.z
    x := a.w * b.x + a.x * b.w + a.y * b.z - a.z * b.y
    y := a.w * b.y - a.x * b.z + a.y * b.w + a.z * b.x
    z := a.w * b.z + a.x * b.y - a.y * b.x + a.z * b.w }

instance : Mul PyQuaternion := ⟨PyQuaternion.mul⟩

/-- `Quaternion(axis=(1.0, 0.0, 0.0), radians=t)`: the axis is already
unit, so the constructor yields `(cos(t/2), sin(t/2)·axis)`. -/
noncomputable def quatAxisX (t : ℝ) : PyQuaternion :=
  ⟨Real.cos (t / 2), Real.sin (t / 2), 0, 0⟩

/-- `Quaternion(axis=(0.0, 1.0, 0.0), radians=t)`. -/
noncomputable def quatAxisY (t : ℝ) : PyQuaternion :=
  ⟨Real.cos (t / 2), 0, Real.sin (t / 2), 0⟩

/-- `Quaternion(axis=(0.0, 0.0, 1.0), radians=t)`. -/
noncomputable def quatAxisZ (t : ℝ) : PyQuaternion :=
  ⟨Real.cos (t / 2), 0, 0, Real.sin (t / 2)⟩

/-- Reading a `pyquaternion` value into the `Quaternion` message fields as
`src/run_server.py` lines 125-128 do: vector part (`.imaginary`) into
`(x, y, z)`, scalar part (`.real`) into `w`. -/
def quatToMsg (q : PyQuaternion) : QuatMsg := ⟨q.x, q.y, q.z, q.w⟩

/-- `np.sqrt(np.sum(v2_unnorm**2))` for `v2_unnorm = np.array(res.norms[1:4])`
(`src/run_server.py` lines 101-102): the euclidean norm of the python
slice `norms[1:4]`, with no guard against a zero value. -/
noncomputable def normDenom (norms : List ℝ) : ℝ :=
  Real.sqrt ((((norms.drop 1).take 3).map (fun a => a * a)).sum)

/-- The pose computed by `PlanePosePublisher.publish`
(`src/run_server.py` lines 88-131).  `pos = Pose()` starts zero; the loop
`for pp in plane_params[0:1]` runs on the first plane only (or not at all
when the list is empty, leaving the zero pose).  Inside the loop
`res.norms` holds exactly `pp.w`; the slice `norms[1:4]` is total, while
the indexings `v2[0]`, `v2[1]`, `v2[2]`, `norms[1]`, `norms[2]`,
`norms[3]` raise `IndexError` when out of range, modelled by `Option`
binds.  Position is taken from the raw `norms[1..3]`; orientation is
`quat_x * quat_y * quat_z` of the arccos of the renormalized components,
with no clamping of the arccos arguments. -/
noncomputable def PlanePosePublisher.publish (plane_params : List PlaneParam) :
    Option Pose :=
  match plane_params with
  | [] => some Pose.zero
  | pp :: _ =>
    let norms := pp.w
    let v2 := ((norms.drop 1).take 3).map (fun a => a / normDenom norms)
    do
      let u0 ← v2.get? 0
      let u1 ← v2.get? 1
      let u2 ← v2.get? 2
      let n1 ← norms.get? 1
      let n2 ← norms.get? 2
      let n3 ← norms.get? 3
      let vx := Real.arccos u0
      let vy := Real.arccos u1
      let vz := Real.arccos u2
      let orientation := quatAxisX vx * quatAxisY vy * quatAxisZ vz
      some { position := ⟨n1, n2, n3⟩, orientation := quatToMsg orientation }

/-- One message published on one of the four output topics. -/
inductive PubEvent (Img : Type) where
  | mask : Img → PubEvent Img
  | viz : Img → PubEvent Img
  | result : PlanesResults → PubEvent Img
  | pose : Pose → PubEvent Img

/-- The publish step of one cycle of `main` (`src/run_server.py` lines
178-181): after `detect_planes` returns, the colored mask, the
visualization image, the aggregated results and the pose are published in
that order.  If the pose computation raises (short `w`), the first three
messages have already been published and no pose message follows. -/
noncomputable def mainPublish {Img : Type} (colored_mask img_viz : Img)
    (list_plane_params : List PlaneParam) : List (PubEvent Img) :=
  [PubEvent.mask colored_mask, PubEvent.viz img_viz,
    PubEvent.result (PlaneResultsPublisher.publish list_plane_params)] ++
  match PlanePosePublisher.publish list_plane_params with
  | some pos => [PubEvent.pose pos]
  | none => []

/-- A concrete well-formed plane: the spec's end-to-end scenario A plane
(normal `(0,0,1)` carried in `w[1..3]`, center `(0,0,2)`, mask color
`(255,0,0)`). -/
def ppA : PlaneParam :=
  { w := [0, 0, 0, 1], pts_3d_center := [0, 0, 2],
    pts_2d_center := [10, 20], mask_color := [255, 0, 0] }

/-- A second concrete well-formed plane with distinct values. -/
def ppB : PlaneParam :=
  { w := [5, 6, 7, 8], pts_3d_center := [1, 1, 1],
    pts_2d_center := [3, 4], mask_color := [0, 255, 0] }

/-- A plane whose weight vector is `[0, 1e-200, 0, 0]`: the normal has a
nonzero component, yet under IEEE-754 doubles `(1e-200)**2` underflows to
`0.0`, the unguarded, unclamped code divides by zero and `np.arccos`
returns NaN.  The spec's mandated clamp is absent from the code. -/
def ppC3 : PlaneParam :=
  { w := [0, 1e-200, 0, 0], pts_3d_center := [0, 0, 0],
    pts_2d_center := [0, 0], mask_color := [0, 0, 0] }

/-- A list of length at least 4 decomposes into four heads and a tail. -/
lemma exists_cons4 (w : List ℝ) (h : 4 ≤ w.length) :
    ∃ a b c d t, w = a :: b :: c :: d :: t := by
  match w, h with
  | a :: b :: c :: d :: t, _ => exact ⟨a, b, c, d, t, rfl⟩

/-- The pose publisher's normalization denominator on a decomposed weight
list. -/
lemma normDenom_cons (a b c d : ℝ) (t : List ℝ) :
    normDenom (a :: b :: c :: d :: t) = Real.sqrt (b * b + (c * c + d * d)) := by
  simp [normDenom, add_assoc]

/-- Unfolding of the `Mul` instance on `PyQuaternion`. -/
lemma PyQuaternion.mul_def (a b : PyQuaternion) : a * b = PyQuaternion.mul a b := rfl

/-- Full evaluation of the pose publisher on a first plane whose weight
list has at least four components. -/
lemma PlanePosePublisher.publish_cons4 (pp : PlaneParam) (ps : List PlaneParam)
    (a b c d : ℝ) (t : List ℝ) (hw : pp.w = a :: b :: c :: d :: t) :
    PlanePosePublisher.publish (pp :: ps) =
      some { position := ⟨b, c, d⟩
             orientation := quatToMsg
               (quatAxisX (Real.arccos (b / normDenom pp.w)) *
                 quatAxisY (Real.arccos (c / normDenom pp.w)) *
                   quatAxisZ (Real.arccos (d / normDenom pp.w))) } := by
  simp [PlanePosePublisher.publish, hw]

/-- C1 counterexample: the claim asserts `norms.length == 3N`, but for the
single plane `ppA` — whose weight vector has the 4 components the pose
publisher's own indexing requires — the flattened `norms` has length
`4`, not `3 · 1`. -/
theorem C1_counterexample :
    (PlaneResultsPublisher.publish [ppA]).norms.length ≠ 3 * 1 := by
  simp [PlaneResultsPublisher.publish, ppA]

/-- C1 (amended): for well-formed planes (4-component weight vector,
3-vector 3D center, 2-vector 2D center, 3-vector mask color), the message
built by `PlaneResultsPublisher.publish` satisfies
`norms.length = 4N`, `center_3d.length = 3N`, `center_2d.length = 2N`,
`mask_color.length = 3N`. -/
theorem C1_publish_lengths (ps : List PlaneParam) (h : ∀ pp ∈ ps, pp.WF) :
    (PlaneResultsPublisher.publish ps).norms.length = 4 * ps.length ∧
      (PlaneResultsPublisher.publish ps).center_3d.length = 3 * ps.length ∧
        (PlaneResultsPublisher.publish ps).center_2d.length = 2 * ps.length ∧
          (PlaneResultsPublisher.publish ps).mask_color.length = 3 * ps.length := by
  induction ps with
  | nil => simp [PlaneResultsPublisher.publish]
  | cons p t ih =>
    obtain ⟨h1, h2, h3, h4⟩ := h p (List.mem_cons_self p t)
    obtain ⟨i1, i2, i3, i4⟩ := ih (fun pp hpp => h pp (List.mem_cons_of_mem p hpp))
    simp only [PlaneResultsPublisher.publish, List.flatMap_cons, List.length_append,
      List.length_cons] at i1 i2 i3 i4 ⊢
    rw [h1, h2, h3, h4, i1, i2, i3, i4]
    omega

/-- C1 witness: the amended lengths at the concrete one-plane list `[ppA]`. -/
theorem C1_witness :
    (PlaneResultsPublisher.publish [ppA]).norms.length = 4 * 1 ∧
      (PlaneResultsPublisher.publish [ppA]).center_3d.length = 3 * 1 ∧
        (PlaneResultsPublisher.publish [ppA]).center_2d.length = 2 * 1 ∧
          (PlaneResultsPublisher.publish [ppA]).mask_color.length = 3 * 1 :=
  C1_publish_lengths [ppA] (by intro pp hpp; simp at hpp; subst hpp; decide)

/-- In a flattening of uniform-length blocks, the i-th block is the image
of the i-th element. -/
lemma flatMap_block (f : PlaneParam → List ℝ) (k : ℕ) (ps : List PlaneParam)
    (h : ∀ pp ∈ ps, (f pp).length = k) (i : ℕ) (hi : i < ps.length) :
    ((ps.flatMap f).drop (k * i)).take k = f (ps.get ⟨i, hi⟩) := by
  induction ps generalizing i with
  | nil => simp at hi
  | cons p t ih =>
    cases i with
    | zero =>
      simp only [Nat.mul_zero, List.drop_zero, List.flatMap_cons, List.get]
      exact List.take_left' (h p (List.mem_cons_self p t))
    | succ i =>
      have hp : (f p).length = k := h p (List.mem_cons_self p t)
      simp only [List.flatMap_cons, List.get_cons_succ]
      rw [show k * (i + 1) = k + k * i by ring, ← List.drop_drop,
        List.drop_left' hp]
      exact ih (fun pp hpp => h pp (List.mem_cons_of_mem p hpp)) i
        (by simpa using Nat.lt_of_succ_lt_succ hi)

/-- C7 counterexample: with the two well-formed planes `ppA`, `ppB` (whose
weight vectors have the 4 components the pose publisher requires), the
1st triple of the flattened `norms` is not the 1st plane's norms field:
the blocks of `norms` have width 4, not 3. -/
theorem C7_counterexample :
    ((PlaneResultsPublisher.publish [ppA, ppB]).norms.drop (3 * 1)).take 3 ≠ ppB.w := by
  intro hEq
  have := congrArg List.length hEq
  simp [PlaneResultsPublisher.publish, ppA, ppB] at this

/-- C7 (amended): aggregation is an order-preserving pure flattening — for
every well-formed plane sequence and every index i, the i-th block of
each output sequence equals the corresponding field of the i-th input
plane, where the block width is 4 for `norms` (the plane's weight vector
`w`), 3 for `center_3d`, 2 for `center_2d` and 3 for `mask_color`; no
plane is reordered, deduplicated or filtered. -/
theorem C7_publish_blocks (ps : List PlaneParam) (h : ∀ pp ∈ ps, pp.WF)
    (i : ℕ) (hi : i < ps.length) :
    (((PlaneResultsPublisher.publish ps).norms.drop (4 * i)).take 4
        = (ps.get ⟨i, hi⟩).w) ∧
      (((PlaneResultsPublisher.publish ps).center_3d.drop (3 * i)).take 3
        = (ps.get ⟨i, hi⟩).pts_3d_center) ∧
      (((PlaneResultsPublisher.publish ps).center_2d.drop (2 * i)).take 2
        = (ps.get ⟨i, hi⟩).pts_2d_center) ∧
      (((PlaneResultsPublisher.publish ps).mask_color.drop (3 * i)).take 3
        = (ps.get ⟨i, hi⟩).mask_color) :=
  ⟨flatMap_block _ 4 ps (fun pp hpp => (h pp hpp).1) i hi,
    flatMap_block _ 3 ps (fun pp hpp => (h pp hpp).2.1) i hi,
    flatMap_block _ 2 ps (fun pp hpp => (h pp hpp).2.2.1) i hi,
    flatMap_block _ 3 ps (fun pp hpp => (h pp hpp).2.2.2) i hi⟩

/-- C7 witness: the amended block property at the concrete two-plane list
`[ppA, ppB]` and index 1. -/
theorem C7_witness :
    (((PlaneResultsPublisher.publish [ppA, ppB]).norms.drop (4 * 1)).take 4
        = ([ppA, ppB].get ⟨1, by simp⟩).w) ∧
      (((PlaneResultsPublisher.publish [ppA, ppB]).center_3d.drop (3 * 1)).take 3
        = ([ppA, ppB].get ⟨1, by simp⟩).pts_3d_center) ∧
      (((PlaneResultsPublisher.publish [ppA, ppB]).center_2d.drop (2 * 1)).take 2
        = ([ppA, ppB].get ⟨1, by simp⟩).pts_2d_center) ∧
      (((PlaneResultsPublisher.publish [ppA, ppB]).mask_color.drop (3 * 1)).take 3
        = ([ppA, ppB].get ⟨1, by simp⟩).mask_color) :=
  C7_publish_blocks [ppA, ppB]
    (by
      intro pp hpp
      rcases List.mem_cons.mp hpp with h1 | h2
      · subst h1; decide
      · simp at h2; subst h2; decide)
    1 (by simp)

/-- C2: for every non-empty plane sequence (with the weight components the
code indexes), the published position is the raw, unnormalized normal
`(w[1], w[2], w[3])` taken before the unit renormalization — not the
plane's 3D center. -/
theorem C2_position_raw_normal (pp : PlaneParam) (ps : List PlaneParam)
    (h : 4 ≤ pp.w.length) :
    (PlanePosePublisher.publish (pp :: ps)).map Pose.position =
      some ⟨pp.w.getD 1 0, pp.w.getD 2 0, pp.w.getD 3 0⟩ := by
  obtain ⟨a, b, c, d, t, hw⟩ := exists_cons4 pp.w h
  rw [PlanePosePublisher.publish_cons4 pp ps a b c d t hw, hw]
  simp

/-- C2 witness: on the concrete plane `ppA` the published position is the
raw normal `(0, 0, 1)`, matching the spec's scenario A. -/
theorem C2_witness :
    (PlanePosePublisher.publish [ppA]).map Pose.position = some ⟨0, 0, 1⟩ := by
  have h := C2_position_raw_normal ppA [] (by decide)
  simpa [ppA] using h

/-- C4: for every non-empty plane sequence the published orientation is
the Hamilton product of the single-axis rotations about X, Y, Z (by
arccos of the corresponding renormalized component) in the fixed order
`X * Y * Z`, with the vector part in `(x, y, z)` and the scalar part in
`w`. -/
theorem C4_orientation_composition (pp : PlaneParam) (ps : List PlaneParam)
    (h : 4 ≤ pp.w.length) :
    (PlanePosePublisher.publish (pp :: ps)).map Pose.orientation =
      some (quatToMsg
        (quatAxisX (Real.arccos (pp.w.getD 1 0 / normDenom pp.w)) *
          quatAxisY (Real.arccos (pp.w.getD 2 0 / normDenom pp.w)) *
            quatAxisZ (Real.arccos (pp.w.getD 3 0 / normDenom pp.w)))) := by
  obtain ⟨a, b, c, d, t, hw⟩ := exists_cons4 pp.w h
  rw [PlanePosePublisher.publish_cons4 pp ps a b c d t hw, hw]
  simp

/-- C4 witness: the composition at the concrete plane `ppA`. -/
theorem C4_witness :
    (PlanePosePublisher.publish [ppA]).map Pose.orientation =
      some (quatToMsg
        (quatAxisX (Real.arccos (ppA.w.getD 1 0 / normDenom ppA.w)) *
          quatAxisY (Real.arccos (ppA.w.getD 2 0 / normDenom ppA.w)) *
            quatAxisZ (Real.arccos (ppA.w.getD 3 0 / normDenom ppA.w)))) :=
  C4_orientation_composition ppA [] (by decide)

/-- C6: the published pose depends only on the first plane — deriving from
the full sequence equals deriving from the singleton of its head. -/
theorem C6_first_plane_only (pp : PlaneParam) (ps : List PlaneParam) :
    PlanePosePublisher.publish (pp :: ps) = PlanePosePublisher.publish [pp] := rfl

/-- C9: the pose publisher reads the normal from positions 1..3 of the
first plane's flattened weight vector, so it succeeds exactly when that
vector has at least 4 components; with exactly 3 the accesses `v2[2]`
and `norms[3]` are out of range and no pose is produced. -/
theorem C9_isSome_iff (pp : PlaneParam) (ps : List PlaneParam) :
    (PlanePosePublisher.publish (pp :: ps)).isSome ↔ 4 ≤ pp.w.length := by
  rcases hw : pp.w with _ | ⟨a, _ | ⟨b, _ | ⟨c, _ | ⟨d, t⟩⟩⟩⟩
  · simp [PlanePosePublisher.publish, hw]
  · simp [PlanePosePublisher.publish, hw]
  · simp [PlanePosePublisher.publish, hw]
  · simp [PlanePosePublisher.publish, hw]
  · rw [PlanePosePublisher.publish_cons4 pp ps a b c d t hw]
    simp [hw]

/-- C10: the renormalization divides by `normDenom` with no zero guard,
and that denominator vanishes exactly when the selected components
`w[1], w[2], w[3]` are all zero — the unstated precondition for a
well-defined division. -/
theorem C10_denominator_zero_iff (w : List ℝ) (h : 4 ≤ w.length) :
    normDenom w = 0 ↔ w.getD 1 0 = 0 ∧ w.getD 2 0 = 0 ∧ w.getD 3 0 = 0 := by
  obtain ⟨a, b, c, d, t, rfl⟩ := exists_cons4 w h
  rw [normDenom_cons]
  simp only [List.getD_cons_succ, List.getD_cons_zero]
  rw [Real.sqrt_eq_zero']
  constructor
  · intro hle
    have hb := mul_self_nonneg b
    have hc := mul_self_nonneg c
    have hd := mul_self_nonneg d
    refine ⟨?_, ?_, ?_⟩ <;> nlinarith
  · rintro ⟨hb, hc, hd⟩
    rw [hb, hc, hd]
    norm_num

/-- C10 witness: on the weight vector `[1, 0, 0, 0]` (nonzero first entry,
all selected components zero) the denominator is zero. -/
theorem C10_witness : normDenom [(1 : ℝ), 0, 0, 0] = 0 :=
  (C10_denominator_zero_iff [(1 : ℝ), 0, 0, 0] (by norm_num)).mpr
    (by norm_num)

/-- C5: an empty detection result is not an error — the mask, the
visualization, the (empty) `PlanesResults` and the pose are all still
published, and the pose is the zero-initialized default (origin position,
zero-quaternion orientation). -/
theorem C5_empty_cycle {Img : Type} (colored_mask img_viz : Img) :
    mainPublish colored_mask img_viz [] =
      [PubEvent.mask colored_mask, PubEvent.viz img_viz,
        PubEvent.result
          { N := 0, norms := [], center_3d := [], center_2d := [], mask_color := [] },
        PubEvent.pose ⟨⟨0, 0, 0⟩, ⟨0, 0, 0, 0⟩⟩] := rfl

/-- C8: in every cycle whose pose derivation succeeds, the four publish
operations fire exactly once each, in the fixed order mask,
visualization, aggregated result, pose, on the values computed from the
completed detection. -/
theorem C8_publish_order {Img : Type} (colored_mask img_viz : Img)
    (ps : List PlaneParam) (pos : Pose)
    (h : PlanePosePublisher.publish ps = some pos) :
    mainPublish colored_mask img_viz ps =
      [PubEvent.mask colored_mask, PubEvent.viz img_viz,
        PubEvent.result (PlaneResultsPublisher.publish ps),
        PubEvent.pose pos] := by
  simp [mainPublish, h]

/-- C8 witness: the publish order at a concrete cycle with no detected
planes. -/
theorem C8_witness :
    mainPublish true false [] =
      [PubEvent.mask true, PubEvent.viz false,
        PubEvent.result (PlaneResultsPublisher.publish []),
        PubEvent.pose Pose.zero] :=
  C8_publish_order true false [] Pose.zero rfl

/-- C3: exact-arithmetic evaluation of the unclamped code at the failing
input `ppC3`.  In real arithmetic the renormalized component is exactly
`1`, arccos is defined without any clamp and the published pose is
finite; the NaN produced by the actual code at this input is purely a
floating-point effect of the missing clamp and the underflowing
denominator. -/
theorem C3_exact_arithmetic_at_failing_input :
    PlanePosePublisher.publish [ppC3] =
      some { position := ⟨1e-200, 0, 0⟩
             orientation := ⟨1 / 2, 1 / 2, 1 / 2, 1 / 2⟩ } := by
  have ht : (0 : ℝ) < 1e-200 := by norm_num
  have hden : normDenom ppC3.w = 1e-200 := by
    rw [show ppC3.w = [0, 1e-200, 0, 0] from rfl, normDenom_cons]
    rw [show (1e-200 : ℝ) * 1e-200 + (0 * 0 + 0 * 0) = 1e-200 * 1e-200 by ring]
    exact Real.sqrt_mul_self ht.le
  rw [PlanePosePublisher.publish_cons4 ppC3 [] 0 (1e-200) 0 0 [] rfl, hden]
  rw [div_self (ne_of_gt ht), zero_div, Real.arccos_one, Real.arccos_zero]
  have h2 : Real.sqrt 2 * Real.sqrt 2 = 2 := Real.mul_self_sqrt (by norm_num)
  simp only [show (π / 2) / 2 = π / 4 from by ring, quatAxisX, quatAxisY, quatAxisZ,
    quatToMsg, PyQuaternion.mul_def, PyQuaternion.mul, zero_div, Real.cos_zero,
    Real.sin_zero, Real.cos_pi_div_four, Real.sin_pi_div_four, Option.some.injEq,
    Pose.mk.injEq, QuatMsg.mk.injEq, Point.mk.injEq, true_and, and_true]
  refine ⟨?_, ?_, ?_, ?_⟩ <;> nlinarith [h2]
